import Mathlib

/-!
A shallow embedding of the webhook delivery and retry subsystem of the
PingLater repository (Go sources under `internal/models`, `internal/services`,
`internal/api/handlers` and `internal/whatsapp`).

Modelling conventions:
* Go strings are modelled as lists of characters (`Str`); Go byte slices as
  lists of naturals below 256 (`Bytes`).
* Stateful code (database reads/writes, HTTP calls) is modelled by explicit
  state passing: the outcome of an HTTP attempt is a parameter, persisted
  records are values, and the scheduler's SQL scan is a filter over a list.
* Wall-clock time is a natural number; durations from the backoff table are
  kept in minutes.
-/

/-- Go strings, modelled as lists of characters. -/
abbrev Str : Type := List Char

/-- Go byte slices, modelled as lists of naturals (each below 256). -/
abbrev Bytes : Type := List Nat

namespace PingLater

/-- The whitespace test used by `trimSpace` in `internal/models/webhook.go`:
space, tab, newline and carriage return. -/
def isSpaceChar (c : Char) : Bool :=
  c = ' ' || c = '\t' || c = '\n' || c = '\r'

/-- Embeds `trimSpace` (internal/models/webhook.go): the Go loop advances `start`
over leading whitespace and retreats `end` over trailing whitespace,
returning the slice in between. -/
def trimSpace (s : Str) : Str :=
  ((s.dropWhile isSpaceChar).reverse.dropWhile isSpaceChar).reverse

/-- The comma-splitting loop of `splitAndTrim` (internal/models/webhook.go):
the Go code emits the segment before every `,` and then the final segment,
so the empty string yields one empty segment. -/
def splitOnComma : Str → List Str
  | [] => [[]]
  | c :: rest =>
    if c = ',' then [] :: splitOnComma rest
    else
      match splitOnComma rest with
      | [] => [[c]]
      | p :: ps => (c :: p) :: ps

/-- Embeds `splitAndTrim` (internal/models/webhook.go): split on commas and trim
each segment (the Go loop trims each emitted part in place). -/
def splitAndTrim (s : Str) : List Str :=
  (splitOnComma s).map trimSpace

/-- Embeds `ParseEventTypes` (internal/models/webhook.go): the empty string parses
to the empty list; otherwise split-and-trim and keep non-empty segments. -/
def ParseEventTypes (eventTypes : Str) : List Str :=
  if eventTypes = [] then []
  else (splitAndTrim eventTypes).filter (fun et => et != [])

/-- Embeds `JoinEventTypes` (internal/models/webhook.go): concatenate the elements
with a `,` between consecutive ones; the empty list joins to the empty
string. -/
def JoinEventTypes : List Str → Str
  | [] => []
  | et :: rest => et ++ (rest.map (fun x => ',' :: x)).flatten

/-- Embeds `NormalizePhoneNumber` (internal/models/webhook.go): keep only the
decimal digit characters. -/
def NormalizePhoneNumber (phone : Str) : Str :=
  phone.filter (fun ch => decide ('0' ≤ ch) && decide (ch ≤ '9'))

/-- Embeds `PhoneNumberMatches` (internal/models/webhook.go): membership of the
normalized phone in the normalized list. -/
def PhoneNumberMatches (phone : Str) (phoneList : List Str) : Bool :=
  phoneList.any (fun p => NormalizePhoneNumber p == NormalizePhoneNumber phone)

/-- Go `strings.EqualFold`, restricted to ASCII case folding (the inputs the
repository compares are JIDs, event tags and phone numbers). -/
def equalFold (a b : Str) : Bool :=
  a.map Char.toLower == b.map Char.toLower

/-- Embeds `contains` (internal/services/webhook.go): case-insensitive membership of
an event-type tag in a parsed list. -/
def containsFold (slice : List Str) (item : Str) : Bool :=
  slice.any (fun s => equalFold s item)

theorem splitOnComma_ne_nil (s : Str) : splitOnComma s ≠ [] := by
  cases s with
  | nil => simp [splitOnComma]
  | cons c rest =>
    simp only [splitOnComma]
    by_cases hc : c = ','
    · simp [hc]
    · simp only [if_neg hc]
      cases h : splitOnComma rest <;> simp

theorem splitOnComma_append (e s : Str) (he : ',' ∉ e) (p : Str)
    (ps : List Str) (hs : splitOnComma s = p :: ps) :
    splitOnComma (e ++ s) = (e ++ p) :: ps := by
  induction e with
  | nil => simpa using hs
  | cons c e' ih =>
    have hc : ¬ c = ',' := by
      intro h
      exact he (h ▸ List.mem_cons_self _ _)
    have he' : ',' ∉ e' := fun h => he (List.mem_cons_of_mem _ h)
    have ih2 : splitOnComma (e'.append s) = (e' ++ p) :: ps := ih he'
    simp only [List.cons_append, splitOnComma, if_neg hc, ih2]

theorem joinEventTypes_cons_cons (e r : Str) (rest : List Str) :
    JoinEventTypes (e :: r :: rest) = e ++ ',' :: JoinEventTypes (r :: rest) := by
  simp [JoinEventTypes, List.flatten]

theorem splitOnComma_join (e : Str) (rest : List Str)
    (h : ∀ x ∈ e :: rest, ',' ∉ x) :
    splitOnComma (JoinEventTypes (e :: rest)) = e :: rest := by
  induction rest generalizing e with
  | nil =>
    have he : ',' ∉ e := h e (List.mem_cons_self _ _)
    have h2 := splitOnComma_append e [] he [] [] rfl
    simpa [JoinEventTypes] using h2
  | cons r rest' ih =>
    have he : ',' ∉ e := h e (List.mem_cons_self _ _)
    have hr : ∀ x ∈ r :: rest', ',' ∉ x := fun x hx =>
      h x (List.mem_cons_of_mem _ hx)
    have ih2 := ih r hr
    have hcomma : splitOnComma (',' :: JoinEventTypes (r :: rest')) =
        [] :: splitOnComma (JoinEventTypes (r :: rest')) := by
      simp [splitOnComma]
    have h2 := splitOnComma_append e (',' :: JoinEventTypes (r :: rest')) he
      [] (splitOnComma (JoinEventTypes (r :: rest'))) hcomma
    rw [joinEventTypes_cons_cons, h2, ih2]
    simp

theorem map_trimSpace_id (L : List Str) (h : ∀ e ∈ L, trimSpace e = e) :
    L.map trimSpace = L := by
  induction L with
  | nil => rfl
  | cons e rest ih =>
    have h1 := h e (List.mem_cons_self _ _)
    have h2 := ih (fun x hx => h x (List.mem_cons_of_mem _ hx))
    simp [h1, h2]

theorem filter_ne_nil_id (L : List Str) (h : ∀ e ∈ L, e ≠ []) :
    L.filter (fun et => et != []) = L := by
  induction L with
  | nil => rfl
  | cons e rest ih =>
    have h1 := h e (List.mem_cons_self _ _)
    have h2 := ih (fun x hx => h x (List.mem_cons_of_mem _ hx))
    simp [List.filter_cons, h1, h2]

theorem parse_join_eq (L : List Str)
    (h : ∀ e ∈ L, e ≠ [] ∧ ',' ∉ e ∧ trimSpace e = e) :
    ParseEventTypes (JoinEventTypes L) = L := by
  cases L with
  | nil => rfl
  | cons e rest =>
    have hsplit := splitOnComma_join e rest (fun x hx => (h x hx).2.1)
    have hne : JoinEventTypes (e :: rest) ≠ [] := by
      have he : e ≠ [] := (h e (List.mem_cons_self _ _)).1
      cases e with
      | nil => exact absurd rfl he
      | cons c e' => simp [JoinEventTypes]
    have htrim := map_trimSpace_id (e :: rest) (fun x hx => (h x hx).2.2)
    have hfilt := filter_ne_nil_id (e :: rest) (fun x hx => (h x hx).1)
    simp only [ParseEventTypes, splitAndTrim, if_neg hne, hsplit, htrim, hfilt]

/-- C10: for every list of strings whose elements are non-empty, comma-free
and free of leading/trailing whitespace, `ParseEventTypes (JoinEventTypes L)`
returns `L` exactly; but an element containing a comma (here `"a,b"`) is
silently split by the round trip, so such filter values are not faithfully
stored. -/
theorem C10_parse_join_roundtrip (L : List Str)
    (h : ∀ e ∈ L, e ≠ [] ∧ ',' ∉ e ∧ trimSpace e = e) :
    ParseEventTypes (JoinEventTypes L) = L ∧
    ParseEventTypes (JoinEventTypes [['a', ',', 'b']]) = [['a'], ['b']] ∧
    ParseEventTypes (JoinEventTypes [['a', ',', 'b']]) ≠ [['a', ',', 'b']] :=
  ⟨parse_join_eq L h, by decide, by decide⟩

/-- Witness for C10 at the concrete list `["a", "b"]`. -/
theorem C10_parse_join_roundtrip_witness :
    ParseEventTypes (JoinEventTypes [['a'], ['b']]) = [['a'], ['b']] :=
  (C10_parse_join_roundtrip [['a'], ['b']] (by decide)).1

/-- Embeds `models.Webhook` (internal/models/webhook.go), restricted to the fields
the core logic reads.  List-valued filters are stored comma-joined, exactly
as in the Go schema; the secret is kept as its byte string (Go converts it
with `[]byte(secret)` before signing). -/
structure Webhook where
  ID : Nat
  UserID : Nat
  URL : Str
  Secret : Bytes
  Description : Str
  IsActive : Bool
  EventTypes : Str
  FilterPhoneNumbers : Str
  FilterPhoneMatchType : Str
  FilterChatType : Str
  FilterGroupJIDs : Str
  FilterGroupNames : Str
deriving DecidableEq

/-- Embeds `models.MessageReceivedData` (internal/models/webhook.go). -/
structure MessageReceivedData where
  From : Str
  FromPhone : Str
  FromName : Str
  Content : Str
  MessageID : Str
  IsGroup : Bool
  GroupName : Str
  Timestamp : Int
deriving DecidableEq

/-- Embeds `models.WebhookDelivery` (internal/models/webhook.go).  The payload is
kept as the raw byte string (Go stores `string(payloadBytes)` and retries
with `[]byte(delivery.Payload)`); timestamps are naturals. -/
structure WebhookDelivery where
  WebhookID : Nat
  EventType : Str
  Payload : Bytes
  ResponseStatus : Nat
  ResponseBody : Str
  Success : Bool
  ErrorMessage : Str
  RetryCount : Nat
  NextRetryAt : Option Nat
deriving DecidableEq

/-- The chat-type block of `matchesFilters` (internal/services/webhook.go
lines 102-111): a filter other than empty or "all" rejects the mismatched
chat kind. -/
def chatTypeRejects (w : Webhook) (d : MessageReceivedData) : Bool :=
  if w.FilterChatType != [] && w.FilterChatType != "all".toList then
    (w.FilterChatType == "individual".toList && d.IsGroup) ||
    (w.FilterChatType == "group".toList && !d.IsGroup)
  else false

/-- The phone-number block of `matchesFilters` (lines 113-128), over the
already-parsed phone list: an empty list imposes no restriction, and an
absent match mode defaults to whitelist. -/
def phoneFilterAccepts (fromPhone : Str) (phoneNumbers : List Str)
    (matchType : Str) : Bool :=
  if phoneNumbers.length > 0 then
    let matched := PhoneNumberMatches fromPhone phoneNumbers
    let mt := if matchType == [] then "whitelist".toList else matchType
    if mt == "whitelist".toList && !matched then false
    else if mt == "blacklist".toList && matched then false
    else true
  else true

/-- The group-JID block of `matchesFilters` (lines 132-145): with a
non-empty list, some listed JID must case-insensitively equal the value the
code compares against — which is `data.From`. -/
def groupJIDAccepts (jids : List Str) (fromValue : Str) : Bool :=
  if jids.length > 0 then jids.any (fun jid => equalFold jid fromValue)
  else true

/-- The group-name block of `matchesFilters` (lines 147-160): with a
non-empty list, some listed name must case-insensitively equal
`data.GroupName`. -/
def groupNameAccepts (names : List Str) (groupName : Str) : Bool :=
  if names.length > 0 then names.any (fun name => equalFold name groupName)
  else true

/-- Embeds `matchesFilters` (internal/services/webhook.go lines 101-164): the Go
function returns false at the first failing block; the two group blocks run
only for group messages. -/
def matchesFilters (w : Webhook) (d : MessageReceivedData) : Bool :=
  if chatTypeRejects w d then false
  else if !phoneFilterAccepts d.FromPhone
      (ParseEventTypes w.FilterPhoneNumbers) w.FilterPhoneMatchType then false
  else if d.IsGroup &&
      !groupJIDAccepts (ParseEventTypes w.FilterGroupJIDs) d.From then false
  else if d.IsGroup &&
      !groupNameAccepts (ParseEventTypes w.FilterGroupNames) d.GroupName then
    false
  else true

/-- The fields of a whatsmeow `events.Message` that `extractMessageData`
(internal/whatsapp/client.go lines 350-383) reads.  `SenderUser` is
`msg.Info.Sender.User` and `ChatString` is `msg.Info.Chat.String()` — the
chat JID rendered as a string. -/
structure MsgInfo where
  SenderUser : Str
  ChatString : Str
  IsGroup : Bool
  PushName : Str
  MessageID : Str
  Timestamp : Int
deriving DecidableEq

/-- Embeds `extractMessageData` (internal/whatsapp/client.go lines 350-383).  The
sender phone (resolved by `getSenderPhoneNumber` from LID stores) and the
extracted text content are abstracted as inputs.  Note the code sets
`From := msg.Info.Sender.User` (the sender) and, for group messages,
`GroupName := msg.Info.Chat.String()` (the chat JID); assigning `PushName`
only when non-empty coincides with assigning it always, since the zero
value is the empty string. -/
def extractMessageData (fromPhone content : Str) (info : MsgInfo) :
    MessageReceivedData :=
  { From := info.SenderUser
    FromPhone := fromPhone
    FromName := info.PushName
    Content := content
    MessageID := info.MessageID
    IsGroup := info.IsGroup
    GroupName := if info.IsGroup then info.ChatString else []
    Timestamp := info.Timestamp }

/-- The fixed retry intervals of `calculateNextRetry`
(internal/services/webhook.go lines 264-280), in minutes. -/
def retryIntervals : List Nat := [1, 5, 15, 30, 60]

/-- The interval picked by `calculateNextRetry` for a retry count: counts at
or beyond the table length are clamped to the last entry. -/
def backoffMinutes (retryCount : Nat) : Nat :=
  let rc := if retryCount ≥ retryIntervals.length then retryIntervals.length - 1
    else retryCount
  retryIntervals.getD rc 0

/-- Embeds `calculateNextRetry`: now plus the backoff interval (time unit:
minutes). -/
def calculateNextRetry (now : Nat) (retryCount : Nat) : Nat :=
  now + backoffMinutes retryCount

/-- The possible outcomes of the HTTP POST inside `sendWebhook`
(internal/services/webhook.go lines 222-255), abstracting the network:
request construction may fail, the transport may fail (DNS, connect,
timeout), or a response with a status code and body arrives. -/
inductive HTTPOutcome where
  | createError (msg : Str)
  | transportError (msg : Str)
  | response (status : Nat) (body : Str)
deriving DecidableEq

/-- The tuple returned by `sendWebhook`: (success, statusCode, responseBody,
error); Go's nil error is `none`. -/
structure SendResult where
  success : Bool
  statusCode : Nat
  responseBody : Str
  error : Option Str
deriving DecidableEq

/-- Embeds `sendWebhook` (internal/services/webhook.go lines 222-255): total in the
outcome — every failure is returned inside the tuple, never thrown.  A 2xx
status is the success criterion. -/
def sendWebhook (outcome : HTTPOutcome) : SendResult :=
  match outcome with
  | .createError e =>
    ⟨false, 0, [], some ("failed to create request: ".toList ++ e)⟩
  | .transportError e =>
    ⟨false, 0, [], some ("failed to send webhook: ".toList ++ e)⟩
  | .response status body =>
    ⟨decide (200 ≤ status) && decide (status < 300), status, body, none⟩

/-- The delivery record created by `deliverWebhook`
(internal/services/webhook.go lines 192-219) from the `sendWebhook` result:
a fresh record has retry count 0, and a failed first attempt below the
ceiling is scheduled via `calculateNextRetry`. -/
def mkDeliveryRecord (webhookID : Nat) (eventType : Str) (payload : Bytes)
    (res : SendResult) (now : Nat) : WebhookDelivery :=
  let d : WebhookDelivery :=
    { WebhookID := webhookID, EventType := eventType, Payload := payload,
      Success := res.success, ResponseStatus := res.statusCode,
      ResponseBody := res.responseBody, ErrorMessage := res.error.getD [],
      RetryCount := 0, NextRetryAt := none }
  if !d.Success && decide (d.RetryCount < 5) then
    { d with NextRetryAt := some (calculateNextRetry now d.RetryCount) }
  else d

/-- The record update performed by `retryDelivery`
(internal/services/webhook.go lines 327-372): an inactive destination leaves
the record untouched; otherwise the retry count is incremented, the outcome
fields are overwritten (the error message only when an error occurred), and
the next retry is scheduled only while the incremented count stays below the
ceiling — else the timestamp is cleared. -/
def retryDelivery (webhookActive : Bool) (d : WebhookDelivery)
    (res : SendResult) (now : Nat) : WebhookDelivery :=
  if !webhookActive then d
  else
    { d with
      Success := res.success
      ResponseStatus := res.statusCode
      ResponseBody := res.responseBody
      RetryCount := d.RetryCount + 1
      ErrorMessage := match res.error with
        | some e => e
        | none => d.ErrorMessage
      NextRetryAt :=
        if !res.success && decide (d.RetryCount + 1 < 5) then
          some (calculateNextRetry now (d.RetryCount + 1))
        else none }

/-- The SQL scan predicate of `retryFailedDeliveries`
(internal/services/webhook.go lines 307-310): `success = false AND
retry_count < 5 AND (next_retry_at IS NULL OR next_retry_at <= now)`. -/
def dueForRetry (now : Nat) (d : WebhookDelivery) : Bool :=
  !d.Success && decide (d.RetryCount < 5) &&
    (match d.NextRetryAt with
     | none => true
     | some t => decide (t ≤ now))

/-- Embeds `retryFailedDeliveries` (lines 298-324): the records one scheduler tick
selects for re-attempt. -/
def retryFailedDeliveries (now : Nat) (deliveries : List WebhookDelivery) :
    List WebhookDelivery :=
  deliveries.filter (dueForRetry now)

/-- The delivery record built by `TestWebhook` (internal/services/webhook.go
lines 375-414): event type "test", retry count 0, and no next-retry
timestamp is ever set on it. -/
def mkTestDelivery (webhookID : Nat) (payload : Bytes) (res : SendResult) :
    WebhookDelivery :=
  { WebhookID := webhookID, EventType := "test".toList, Payload := payload,
    Success := res.success, ResponseStatus := res.statusCode,
    ResponseBody := res.responseBody, ErrorMessage := res.error.getD [],
    RetryCount := 0, NextRetryAt := none }

theorem backoffMinutes_add_four (i : Nat) : backoffMinutes (i + 4) = 60 := by
  cases i with
  | zero => decide
  | succ n =>
    have h5 : retryIntervals.length ≤ n + 1 + 4 := by
      simp [retryIntervals]
    simp [backoffMinutes, retryIntervals, h5]

/-- C9: the backoff table maps retry index 0, 1, 2, 3 to 1, 5, 15, 30
minutes and every index 4 or greater to 60 minutes; it is monotone, and from
index 4 on it is constant and equal to its value at 4. -/
theorem C9_backoff_table :
    backoffMinutes 0 = 1 ∧ backoffMinutes 1 = 5 ∧ backoffMinutes 2 = 15 ∧
    backoffMinutes 3 = 30 ∧ (∀ i, backoffMinutes (i + 4) = 60) ∧
    (∀ i, backoffMinutes i ≤ backoffMinutes (i + 1)) ∧
    (∀ i, backoffMinutes (i + 4) = backoffMinutes 4) := by
  refine ⟨by decide, by decide, by decide, by decide, backoffMinutes_add_four,
    ?_, ?_⟩
  · intro i
    match i with
    | 0 => decide
    | 1 => decide
    | 2 => decide
    | 3 => decide
    | n + 4 =>
      rw [backoffMinutes_add_four n,
        show n + 4 + 1 = (n + 1) + 4 from rfl, backoffMinutes_add_four (n + 1)]
  · intro i
    rw [backoffMinutes_add_four i]
    decide

/-- C7: `sendWebhook` succeeds exactly when the HTTP status lies in
[200, 300); a transport failure yields success false, status 0 and the cause
inside the error component; a request-construction failure likewise; the
function is total on every outcome, so no failure escapes the returned
tuple. -/
theorem C7_sendWebhook_contract :
    (∀ status body,
      (sendWebhook (.response status body)).success = true ↔
        200 ≤ status ∧ status < 300) ∧
    (∀ status body, (sendWebhook (.response status body)).statusCode = status ∧
      (sendWebhook (.response status body)).error = none) ∧
    (∀ e, sendWebhook (.transportError e) =
      ⟨false, 0, [], some ("failed to send webhook: ".toList ++ e)⟩) ∧
    (∀ e, sendWebhook (.createError e) =
      ⟨false, 0, [], some ("failed to create request: ".toList ++ e)⟩) := by
  refine ⟨?_, fun _ _ => ⟨rfl, rfl⟩, fun _ => rfl, fun _ => rfl⟩
  intro status body
  simp [sendWebhook]

/-- The spec's delivery-record invariant: a next-retry timestamp is present
only while the record is failed with retry count below the ceiling, and a
successful record carries none. -/
def RecordInvariant (d : WebhookDelivery) : Prop :=
  (d.NextRetryAt ≠ none → d.Success = false ∧ d.RetryCount < 5) ∧
  (d.Success = true → d.NextRetryAt = none)

/-- C6: records created by the dispatcher's first attempt satisfy the
invariant; a scheduler re-attempt preserves it; the retry count never
decreases (and increments by one on an actual re-attempt); the scan never
selects a record whose retry count reached 5; and an updated record whose
count reached 5 has a null next-retry timestamp. -/
theorem C6_delivery_invariants :
    (∀ wid et p res now, RecordInvariant (mkDeliveryRecord wid et p res now)) ∧
    (∀ active d res now, RecordInvariant d →
      RecordInvariant (retryDelivery active d res now)) ∧
    (∀ active d res now,
      d.RetryCount ≤ (retryDelivery active d res now).RetryCount) ∧
    (∀ d res now, (retryDelivery true d res now).RetryCount = d.RetryCount + 1) ∧
    (∀ now d, dueForRetry now d = true → d.RetryCount < 5) ∧
    (∀ d res now, 5 ≤ (retryDelivery true d res now).RetryCount →
      (retryDelivery true d res now).NextRetryAt = none) := by
  refine ⟨?_, ?_, ?_, ?_, ?_, ?_⟩
  · intro wid et p res now
    by_cases hs : res.success
    · exact ⟨fun hne => absurd (by simp [mkDeliveryRecord, hs]) hne, fun _ => by
        simp [mkDeliveryRecord, hs]⟩
    · have hs' : res.success = false := by simpa using hs
      refine ⟨fun _ => ⟨by simp [mkDeliveryRecord, hs'], by
        simp [mkDeliveryRecord, hs']⟩, fun hsucc => ?_⟩
      rw [show (mkDeliveryRecord wid et p res now).Success = res.success by
        simp [mkDeliveryRecord, hs']] at hsucc
      exact absurd hsucc (by simp [hs'])
  · intro active d res now hinv
    cases active with
    | false => simpa [retryDelivery] using hinv
    | true =>
      by_cases hs : res.success
      · exact ⟨fun hne => absurd (by simp [retryDelivery, hs]) hne, fun _ => by
          simp [retryDelivery, hs]⟩
      · have hs' : res.success = false := by simpa using hs
        by_cases hc : d.RetryCount + 1 < 5
        · exact ⟨fun _ => by simp [retryDelivery, hs', hc], fun hsucc => by
            simp [retryDelivery, hs'] at hsucc⟩
        · exact ⟨fun hne => absurd (by simp [retryDelivery, hs', hc]) hne,
            fun _ => by simp [retryDelivery, hs', hc]⟩
  · intro active d res now
    cases active with
    | false => simp [retryDelivery]
    | true => simp [retryDelivery]
  · intro d res now
    simp [retryDelivery]
  · intro now d h
    simp only [dueForRetry, Bool.and_eq_true, decide_eq_true_eq] at h
    exact h.1.2
  · intro d res now h
    simp only [retryDelivery, Bool.not_true, Bool.false_eq_true, if_false] at h ⊢
    by_cases hc : !res.success && decide (d.RetryCount + 1 < 5)
    · have := (Bool.and_eq_true _ _).mp hc
      have hlt : d.RetryCount + 1 < 5 := of_decide_eq_true this.2
      simp at h
      omega
    · simp [hc]

/-- Witness for C6 at concrete records: a re-attempt of a failed record with
count 0 keeps the invariant; a record selected by the scan has count below
5; a re-attempt of a failed record with count 4 clears the timestamp. -/
theorem C6_delivery_invariants_witness :
    RecordInvariant (retryDelivery true
      ⟨1, "test".toList, [], 500, [], false, [], 0, none⟩
      ⟨false, 500, [], none⟩ 7) ∧
    WebhookDelivery.RetryCount
      ⟨1, "test".toList, [], 500, [], false, [], 2, some 3⟩ < 5 ∧
    (retryDelivery true ⟨1, "test".toList, [], 500, [], false, [], 4, some 3⟩
      ⟨false, 500, [], none⟩ 7).NextRetryAt = none :=
  ⟨C6_delivery_invariants.2.1 true _ _ 7
      ⟨fun h => absurd rfl h, fun h => nomatch h⟩,
    C6_delivery_invariants.2.2.2.2.1 7 _ (by decide),
    C6_delivery_invariants.2.2.2.2.2 _ ⟨false, 500, [], none⟩ 7 (by decide)⟩

/-- C1 counterexample: the record persisted for a failed test delivery has a
null next-retry timestamp, yet the scheduler's scan predicate selects it for
re-attempt (the SQL clause admits `next_retry_at IS NULL`). -/
theorem C1_counterexample :
    (mkTestDelivery 1 [] ⟨false, 500, [], none⟩).NextRetryAt = none ∧
    (mkTestDelivery 1 [] ⟨false, 500, [], none⟩).Success = false ∧
    dueForRetry 0 (mkTestDelivery 1 [] ⟨false, 500, [], none⟩) = true ∧
    mkTestDelivery 1 [] ⟨false, 500, [], none⟩ ∈
      retryFailedDeliveries 0 [mkTestDelivery 1 [] ⟨false, 500, [], none⟩] := by
  decide

/-- C1 (amended): on a scheduler tick the selected records are exactly the
failed ones with retry count below 5 whose next-retry timestamp is null or
has passed; in particular a failed record with a null timestamp — such as a
persisted failed test delivery — IS selected for re-attempt. -/
theorem C1_amended_scan (now : Nat) (d : WebhookDelivery)
    (ds : List WebhookDelivery) :
    (d ∈ retryFailedDeliveries now ds ↔
      d ∈ ds ∧ d.Success = false ∧ d.RetryCount < 5 ∧
        (d.NextRetryAt = none ∨ ∃ t, d.NextRetryAt = some t ∧ t ≤ now)) ∧
    (∀ wid p status body e,
      dueForRetry now (mkTestDelivery wid p ⟨false, status, body, e⟩) = true) := by
  constructor
  · rw [retryFailedDeliveries, List.mem_filter]
    have hchar : dueForRetry now d = true ↔
        (d.Success = false ∧ d.RetryCount < 5 ∧
          (d.NextRetryAt = none ∨ ∃ t, d.NextRetryAt = some t ∧ t ≤ now)) := by
      cases hn : d.NextRetryAt with
      | none => simp [dueForRetry, hn]
      | some t => simp [dueForRetry, hn, and_assoc]
    rw [hchar]
  · intro wid p status body e
    simp [dueForRetry, mkTestDelivery]

/-- C4: with a non-empty phone list, whitelist acceptance is exactly
digit-normalized membership and is the negation of blacklist acceptance;
with an empty list every phone is accepted under every mode (so the symmetry
fails at the empty-list boundary); an absent match mode behaves as
whitelist. -/
theorem C4_phone_filter_symmetry (x p : Str) (L : List Str) (mt : Str) :
    (phoneFilterAccepts x (p :: L) "whitelist".toList =
      !phoneFilterAccepts x (p :: L) "blacklist".toList) ∧
    (phoneFilterAccepts x (p :: L) "whitelist".toList =
      PhoneNumberMatches x (p :: L)) ∧
    (phoneFilterAccepts x [] mt = true) ∧
    (phoneFilterAccepts x L [] = phoneFilterAccepts x L "whitelist".toList) := by
  have h1 : (("whitelist".toList : Str) == []) = false := by decide
  have h2 : (("whitelist".toList : Str) == "whitelist".toList) = true := by decide
  have h3 : (("blacklist".toList : Str) == []) = false := by decide
  have h4 : (("blacklist".toList : Str) == "whitelist".toList) = false := by
    decide
  have h5 : (("blacklist".toList : Str) == "blacklist".toList) = true := by
    decide
  have h6 : (([] : Str) == []) = true := rfl
  refine ⟨?_, ?_, ?_, ?_⟩
  · cases hm : PhoneNumberMatches x (p :: L) <;>
      simp [phoneFilterAccepts, h1, h2, h3, h4, h5, hm]
  · cases hm : PhoneNumberMatches x (p :: L) <;>
      simp [phoneFilterAccepts, h1, h2, hm]
  · simp [phoneFilterAccepts]
  · cases L with
    | nil => simp [phoneFilterAccepts]
    | cons q L' =>
      cases hm : PhoneNumberMatches x (q :: L') <;>
        simp [phoneFilterAccepts, h1, h2, h6, hm]

theorem groupAccepts_cases (l : List Str) (v : Str)
    (h : groupJIDAccepts l v = true) :
    l = [] ∨ l.any (fun jid => equalFold jid v) = true := by
  cases l with
  | nil => exact Or.inl rfl
  | cons a l' => exact Or.inr (by simpa [groupJIDAccepts] using h)

theorem groupNameAccepts_eq_groupJIDAccepts :
    groupNameAccepts = groupJIDAccepts := rfl

/-- The destination used for the C5 analysis: only a group-JID filter is
set, listing exactly the JID "g1". -/
def webhookC5 : Webhook :=
  ⟨1, 1, "http://example.com".toList, [], [], true,
    "message_received".toList, [], [], [], "g1".toList, []⟩

/-- The message event used for the C5 counterexample: a group message whose
chat (group) JID is "other" but whose sender user is "g1". -/
def msgC5 : MsgInfo :=
  ⟨"g1".toList, "other".toList, true, [], "m1".toList, 0⟩

/-- C5 counterexample: for a group message whose group identifier
(`Chat.String()`, "other") case-insensitively equals no listed JID, the
filter evaluator nonetheless accepts, because the code compares the listed
JIDs against the sender field `From` — so acceptance is not governed by the
event's group identifier as claimed. -/
theorem C5_counterexample :
    msgC5.IsGroup = true ∧
    ParseEventTypes webhookC5.FilterGroupJIDs = ["g1".toList] ∧
    equalFold "g1".toList msgC5.ChatString = false ∧
    (extractMessageData "7".toList "hi".toList msgC5).GroupName =
      msgC5.ChatString ∧
    matchesFilters webhookC5
      (extractMessageData "7".toList "hi".toList msgC5) = true := by
  decide

/-- C5 (amended): for a group message, a non-empty group-JID list requires
some listed JID to case-insensitively equal the event's `From` field — which
`extractMessageData` fills with the sender identifier, not the group
identifier — and a non-empty group-name list likewise matches against the
`GroupName` field, which holds the chat JID string for group messages; a
destination with chat-type "group" and no group, name or phone filters
accepts every group message. -/
theorem C5_amended (w : Webhook) (d : MessageReceivedData) :
    (d.IsGroup = true → matchesFilters w d = true →
      (ParseEventTypes w.FilterGroupJIDs = [] ∨
        (ParseEventTypes w.FilterGroupJIDs).any
          (fun jid => equalFold jid d.From) = true) ∧
      (ParseEventTypes w.FilterGroupNames = [] ∨
        (ParseEventTypes w.FilterGroupNames).any
          (fun name => equalFold name d.GroupName) = true)) ∧
    (∀ fp c info, (extractMessageData fp c info).From = info.SenderUser ∧
      (info.IsGroup = true →
        (extractMessageData fp c info).GroupName = info.ChatString)) ∧
    (w.FilterChatType = "group".toList → w.FilterGroupJIDs = [] →
      w.FilterGroupNames = [] → w.FilterPhoneNumbers = [] →
      d.IsGroup = true → matchesFilters w d = true) := by
  refine ⟨?_, fun fp c info => ⟨rfl, fun hg => by
    simp [extractMessageData, hg]⟩, ?_⟩
  · intro hG hm
    simp only [matchesFilters] at hm
    split_ifs at hm with hc hp hj hn
    constructor
    · have hjid : groupJIDAccepts (ParseEventTypes w.FilterGroupJIDs)
          d.From = true := by
        cases hgv : groupJIDAccepts (ParseEventTypes w.FilterGroupJIDs)
            d.From with
        | true => rfl
        | false => exact absurd (by simp [hG, hgv]) hj
      exact groupAccepts_cases _ _ hjid
    · have hname : groupNameAccepts (ParseEventTypes w.FilterGroupNames)
          d.GroupName = true := by
        cases hgv : groupNameAccepts (ParseEventTypes w.FilterGroupNames)
            d.GroupName with
        | true => rfl
        | false => exact absurd (by simp [hG, hgv]) hn
      rw [groupNameAccepts_eq_groupJIDAccepts] at hname
      exact groupAccepts_cases _ _ hname
  · intro hct hj hn hp hG
    have hga : (("group".toList : Str) != []) = true := by decide
    have hgal : (("group".toList : Str) != "all".toList) = true := by decide
    have hgi : (("group".toList : Str) == "individual".toList) = false := by
      decide
    have hgg : (("group".toList : Str) == "group".toList) = true := by decide
    have e1 : ParseEventTypes ([] : Str) = [] := rfl
    simp [matchesFilters, chatTypeRejects, phoneFilterAccepts, groupJIDAccepts,
      groupNameAccepts, hct, hj, hn, hp, hG, e1, hga, hgal, hgi, hgg]

/-- The destination used for the C5 witness: chat-type group, no other
filters. -/
def webhookGroupOnly : Webhook :=
  ⟨1, 1, "http://example.com".toList, [], [], true,
    "message_received".toList, [], [], "group".toList, [], []⟩

/-- A concrete group message used for the C5 witness. -/
def dGroupC5 : MessageReceivedData :=
  ⟨"u1".toList, "7".toList, [], "hi".toList, "m".toList, true, "g".toList, 0⟩

/-- Witness for C5 at concrete inputs. -/
theorem C5_amended_witness :
    (ParseEventTypes webhookC5.FilterGroupJIDs = [] ∨
      (ParseEventTypes webhookC5.FilterGroupJIDs).any
        (fun jid => equalFold jid
          (extractMessageData "7".toList "hi".toList msgC5).From) = true) ∧
    matchesFilters webhookGroupOnly dGroupC5 = true :=
  ⟨((C5_amended webhookC5
        (extractMessageData "7".toList "hi".toList msgC5)).1
      (by decide) (by decide)).1,
    (C5_amended webhookGroupOnly dGroupC5).2.2 rfl rfl rfl rfl rfl⟩

/-- Embeds `models.WebhookCreateRequest` (internal/models/webhook.go): at creation
the list-valued fields carry plain lists (nil and empty are
indistinguishable once joined). -/
structure WebhookCreateRequest where
  URL : Str
  Secret : Bytes
  Description : Str
  EventTypes : List Str
  IsActive : Bool
  FilterPhoneNumbers : List Str
  FilterPhoneMatchType : Str
  FilterChatType : Str
  FilterGroupJIDs : List Str
  FilterGroupNames : List Str
deriving DecidableEq

/-- Embeds `models.WebhookUpdateRequest` (internal/models/webhook.go): nilable
slice and pointer fields become options (`none` for a JSON-absent field,
`some []` for an explicitly supplied empty list); plain strings use the
empty string as the absent sentinel, exactly as the handler tests them. -/
structure WebhookUpdateRequest where
  URL : Str
  Secret : Bytes
  Description : Str
  EventTypes : Option (List Str)
  IsActive : Option Bool
  FilterPhoneNumbers : Option (List Str)
  FilterPhoneMatchType : Str
  FilterChatType : Str
  FilterGroupJIDs : Option (List Str)
  FilterGroupNames : Option (List Str)
deriving DecidableEq

/-- Embeds `CreateWebhook` (internal/api/handlers/webhooks.go lines 41-94) after
binding: the validations run in source order, and the stored row joins every
list field.  The Go error strings quote the enum words with apostrophes;
they are reproduced here without the quotes. -/
def createWebhook (userID : Nat) (req : WebhookCreateRequest) :
    Except Str Webhook :=
  if req.EventTypes.length = 0 then
    .error "At least one event type is required".toList
  else if req.FilterPhoneMatchType != [] &&
      req.FilterPhoneMatchType != "whitelist".toList &&
      req.FilterPhoneMatchType != "blacklist".toList then
    .error "filter_phone_match_type must be whitelist or blacklist".toList
  else if req.FilterChatType != [] && req.FilterChatType != "all".toList &&
      req.FilterChatType != "individual".toList &&
      req.FilterChatType != "group".toList then
    .error "filter_chat_type must be all, individual, or group".toList
  else
    .ok
      { ID := 0, UserID := userID, URL := req.URL, Secret := req.Secret,
        Description := req.Description, IsActive := req.IsActive,
        EventTypes := JoinEventTypes req.EventTypes,
        FilterPhoneNumbers := JoinEventTypes req.FilterPhoneNumbers,
        FilterPhoneMatchType := req.FilterPhoneMatchType,
        FilterChatType := req.FilterChatType,
        FilterGroupJIDs := JoinEventTypes req.FilterGroupJIDs,
        FilterGroupNames := JoinEventTypes req.FilterGroupNames }

/-- Whether `UpdateWebhook` (internal/api/handlers/webhooks.go lines
163-203) puts at least one entry into its `updates` map.  Note: no
validation of the event-type list happens on this path. -/
def updateHasFields (req : WebhookUpdateRequest) : Bool :=
  req.URL != [] || req.Secret != [] ||
  (req.URL != [] || req.Description != []) ||
  req.EventTypes.isSome || req.IsActive.isSome ||
  req.FilterPhoneNumbers.isSome || req.FilterPhoneMatchType != [] ||
  req.FilterChatType != [] || req.FilterGroupJIDs.isSome ||
  req.FilterGroupNames.isSome

/-- The effect of applying the `updates` map built by `UpdateWebhook` to the
stored row: each field changes exactly when the handler put it into the
map. -/
def applyUpdates (w : Webhook) (req : WebhookUpdateRequest) : Webhook :=
  { w with
    URL := if req.URL != [] then req.URL else w.URL
    Secret := if req.Secret != [] then req.Secret else w.Secret
    Description := if req.URL != [] || req.Description != [] then
      req.Description else w.Description
    EventTypes := match req.EventTypes with
      | some l => JoinEventTypes l
      | none => w.EventTypes
    IsActive := match req.IsActive with
      | some b => b
      | none => w.IsActive
    FilterPhoneNumbers := match req.FilterPhoneNumbers with
      | some l => JoinEventTypes l
      | none => w.FilterPhoneNumbers
    FilterPhoneMatchType := if req.FilterPhoneMatchType != [] then
      req.FilterPhoneMatchType else w.FilterPhoneMatchType
    FilterChatType := if req.FilterChatType != [] then req.FilterChatType
      else w.FilterChatType
    FilterGroupJIDs := match req.FilterGroupJIDs with
      | some l => JoinEventTypes l
      | none => w.FilterGroupJIDs
    FilterGroupNames := match req.FilterGroupNames with
      | some l => JoinEventTypes l
      | none => w.FilterGroupNames }

/-- Embeds `UpdateWebhook` (internal/api/handlers/webhooks.go lines 123-214) after
the row was found: enum validations in source order, then the emptiness
check on the `updates` map, then the update is applied. -/
def updateWebhook (w : Webhook) (req : WebhookUpdateRequest) :
    Except Str Webhook :=
  if req.FilterPhoneMatchType != [] &&
      req.FilterPhoneMatchType != "whitelist".toList &&
      req.FilterPhoneMatchType != "blacklist".toList then
    .error "filter_phone_match_type must be whitelist or blacklist".toList
  else if req.FilterChatType != [] && req.FilterChatType != "all".toList &&
      req.FilterChatType != "individual".toList &&
      req.FilterChatType != "group".toList then
    .error "filter_chat_type must be all, individual, or group".toList
  else if !updateHasFields req then
    .error "No fields to update".toList
  else
    .ok (applyUpdates w req)

/-- An update request that supplies only an explicitly empty event-type
list. -/
def reqEmptyEvents : WebhookUpdateRequest :=
  ⟨[], [], [], some [], none, none, [], [], none, none⟩

/-- A stored destination with one subscribed event type, used for the C3
counterexample. -/
def webhookC3 : Webhook :=
  ⟨1, 1, "http://example.com".toList, [], [], true,
    "message_received".toList, [], [], [], [], []⟩

/-- A creation request whose event-type list holds exactly one empty
string. -/
def reqBlankEventC3 : WebhookCreateRequest :=
  ⟨"http://example.com".toList, [], [], [[]], true, [], [], [], [], []⟩

/-- The row stored for `reqBlankEventC3`: its event-type string is empty. -/
def webhookBlankStoredC3 : Webhook :=
  ⟨0, 1, "http://example.com".toList, [], [], true, [], [], [], [], [], []⟩

/-- C3 counterexample: neither path guarantees a non-empty stored event-type
set.  A registration whose event-type list holds one empty string passes the
length check and stores the empty string, which parses back to the empty
set; and the partial-update path performs no event-type validation, so an
update that explicitly supplies an empty event-type list succeeds and leaves
the stored destination with an empty event-type set. -/
theorem C3_counterexample :
    createWebhook 1 reqBlankEventC3 = .ok webhookBlankStoredC3 ∧
    ParseEventTypes webhookBlankStoredC3.EventTypes = [] ∧
    updateWebhook webhookC3 reqEmptyEvents =
      .ok { webhookC3 with EventTypes := [] } ∧
    ParseEventTypes (Webhook.EventTypes
      { webhookC3 with EventTypes := [] }) = [] :=
  ⟨rfl, rfl, rfl, rfl⟩

/-- C3 (amended): registration rejects a request whose event-type list is
empty, synchronously and before anything is stored, so a successful
registration implies a non-empty requested event-type list — but neither
path guarantees a non-empty STORED event-type set: a registration whose
event-type list consists of one empty string passes the length check and
stores a row whose event-type set is empty, and the partial-update path
performs no check at all, so supplying an explicitly empty event-type list
succeeds and stores an empty event-type set. -/
theorem C3_amended (uid : Nat) (req : WebhookCreateRequest) (w : Webhook) :
    (req.EventTypes = [] → createWebhook uid req =
      .error "At least one event type is required".toList) ∧
    (∀ w', createWebhook uid req = .ok w' → req.EventTypes ≠ []) ∧
    (∀ url secret desc active, createWebhook uid
      ⟨url, secret, desc, [[]], active, [], [], [], [], []⟩ =
        .ok ⟨0, uid, url, secret, desc, active, [], [], [], [], [], []⟩) ∧
    (updateWebhook w reqEmptyEvents = .ok { w with EventTypes := [] }) := by
  refine ⟨?_, ?_, ?_, ?_⟩
  · intro h
    simp [createWebhook, h]
  · intro w' hok hempty
    simp [createWebhook, hempty] at hok
  · intro url secret desc active
    rfl
  · rfl

/-- The creation request with an empty event-type list used by the C3
witness. -/
def reqNoEventsC3 : WebhookCreateRequest :=
  ⟨"http://example.com".toList, [], [], [], true, [], [], [], [], []⟩

/-- The creation request with one event type used by the C3 witness. -/
def reqOneEventC3 : WebhookCreateRequest :=
  ⟨"http://example.com".toList, [], [], ["message_received".toList], true,
    [], [], [], [], []⟩

/-- Witness for C3: creating with an empty event-type list fails; a
successful creation implies the requested list was non-empty; creating with
a single empty-string event type succeeds with an empty stored set; updating
a concrete row with an explicitly empty list stores the empty set. -/
theorem C3_amended_witness :
    createWebhook 1 reqNoEventsC3 =
      .error "At least one event type is required".toList ∧
    reqOneEventC3.EventTypes ≠ [] ∧
    createWebhook 1 ⟨"http://example.com".toList, [], [], [[]], true,
      [], [], [], [], []⟩ =
      .ok ⟨0, 1, "http://example.com".toList, [], [], true,
        [], [], [], [], [], []⟩ ∧
    updateWebhook webhookC3 reqEmptyEvents =
      .ok { webhookC3 with EventTypes := [] } :=
  ⟨(C3_amended 1 reqNoEventsC3 webhookC3).1 rfl,
    (C3_amended 1 reqOneEventC3 webhookC3).2.1 _ rfl,
    (C3_amended 1 reqOneEventC3 webhookC3).2.2.1
      "http://example.com".toList [] [] true,
    (C3_amended 1 reqOneEventC3 webhookC3).2.2.2⟩

/-- The statistics assembled by `GetWebhookStats`
(internal/services/webhook.go lines 468-495), over the delivery rows of one
webhook.  The Go float64 success rate is modelled as an exact rational;
`strconv.FormatFloat(rate, 'f', 2, 64)` is modelled by `formatRate2`, which
agrees with it at every rate these claims evaluate (exact hundredths). -/
structure WebhookStats where
  totalDeliveries : Nat
  successful : Nat
  failed : Nat
  successRate : Rat
  successRateText : String
deriving DecidableEq

/-- Round half up to an integer. -/
def roundHalfUp (q : Rat) : Int := Int.floor (q + 1 / 2)

/-- Two-decimal percent rendering: integer part, a dot, exactly two digit
characters, then the percent sign. -/
def formatRate2 (q : Rat) : String :=
  let n : Nat := (roundHalfUp (q * 100)).toNat
  toString (n / 100) ++ "." ++
    String.mk [Nat.digitChar (n / 10 % 10), Nat.digitChar (n % 10)] ++ "%"

/-- Embeds `GetWebhookStats` (internal/services/webhook.go lines 468-495): three
counts over the same rows, and a success rate guarded against division by
zero. -/
def GetWebhookStats (deliveries : List WebhookDelivery) : WebhookStats :=
  let totalCount := deliveries.length
  let successCount := (deliveries.filter (fun d => d.Success)).length
  let failedCount := (deliveries.filter (fun d => !d.Success)).length
  let successRate : Rat :=
    if totalCount > 0 then (successCount : Rat) / (totalCount : Rat) * 100
    else 0
  { totalDeliveries := totalCount, successful := successCount,
    failed := failedCount, successRate := successRate,
    successRateText := formatRate2 successRate }

theorem length_filter_partition (ds : List WebhookDelivery) :
    ds.length = (ds.filter (fun d => d.Success)).length +
      (ds.filter (fun d => !d.Success)).length := by
  induction ds with
  | nil => rfl
  | cons d rest ih =>
    cases hs : d.Success <;> simp [List.filter_cons, hs, ih] <;> omega

/-- A single successful delivery row. -/
def recordSuccessC8 : WebhookDelivery :=
  ⟨1, "message_received".toList, [], 200, [], true, [], 0, none⟩

/-- C8: total deliveries equal successful plus failed; with no rows the
success rate is 0 (no division happens); otherwise it is
successful / total * 100; the rendered rate always carries exactly two
decimal digits; after exactly one successful delivery the stats are
total 1, successful 1, failed 0, rate "100.00%". -/
theorem C8_stats (ds : List WebhookDelivery) :
    ((GetWebhookStats ds).totalDeliveries =
      (GetWebhookStats ds).successful + (GetWebhookStats ds).failed) ∧
    (ds.length = 0 → (GetWebhookStats ds).successRate = 0) ∧
    (0 < ds.length → (GetWebhookStats ds).successRate =
      ((GetWebhookStats ds).successful : Rat) /
        ((GetWebhookStats ds).totalDeliveries : Rat) * 100) ∧
    (∀ q, ∃ s d1 d2, formatRate2 q = s ++ "." ++ String.mk [d1, d2] ++ "%") ∧
    ((GetWebhookStats [recordSuccessC8]).totalDeliveries = 1 ∧
      (GetWebhookStats [recordSuccessC8]).successful = 1 ∧
      (GetWebhookStats [recordSuccessC8]).failed = 0 ∧
      (GetWebhookStats [recordSuccessC8]).successRate = 100 ∧
      (GetWebhookStats [recordSuccessC8]).successRateText = "100.00%") := by
  have hr100 : (((1 : Nat) : Rat) / ((1 : Nat) : Rat) * 100) = 100 := by
    norm_num
  have hround : roundHalfUp ((100 : Rat) * 100) = 10000 := by
    rw [roundHalfUp, Int.floor_eq_iff]
    constructor <;> norm_num
  refine ⟨?_, ?_, ?_, ?_, rfl, rfl, rfl, ?_, ?_⟩
  · simpa [GetWebhookStats] using length_filter_partition ds
  · intro h
    simp [GetWebhookStats, h]
  · intro h
    simp [GetWebhookStats, h]
  · intro q
    exact ⟨toString ((roundHalfUp (q * 100)).toNat / 100),
      Nat.digitChar ((roundHalfUp (q * 100)).toNat / 10 % 10),
      Nat.digitChar ((roundHalfUp (q * 100)).toNat % 10), rfl⟩
  · rw [show (GetWebhookStats [recordSuccessC8]).successRate =
      ((1 : Nat) : Rat) / ((1 : Nat) : Rat) * 100 from rfl, hr100]
  · rw [show (GetWebhookStats [recordSuccessC8]).successRateText =
      formatRate2 (((1 : Nat) : Rat) / ((1 : Nat) : Rat) * 100) from rfl,
      hr100]
    simp only [formatRate2, hround]
    rfl

/-- Witness for C8: the zero-rows rate is 0, and the one-successful-row rate
matches the division formula. -/
theorem C8_stats_witness :
    (GetWebhookStats []).successRate = 0 ∧
    (GetWebhookStats [recordSuccessC8]).successRate =
      ((GetWebhookStats [recordSuccessC8]).successful : Rat) /
        ((GetWebhookStats [recordSuccessC8]).totalDeliveries : Rat) * 100 :=
  ⟨(C8_stats []).2.1 rfl, (C8_stats [recordSuccessC8]).2.2.1 (by decide)⟩

/-! ### Signature engine

`calculateSignature` and `ValidateSignature`
(internal/services/webhook.go) rely on Go's crypto/sha256, crypto/hmac and
encoding/hex; those primitives are implemented here over byte lists, with
32-bit words kept as naturals reduced modulo 2^32. -/

/-- Truncation to 32 bits. -/
def w32 (n : Nat) : Nat := n % 4294967296

/-- Rotation of a 32-bit word to the right by `k` positions. -/
def rotr32 (k x : Nat) : Nat := w32 (x >>> k ||| x <<< (32 - k))

def smallSigma0 (x : Nat) : Nat := rotr32 7 x ^^^ rotr32 18 x ^^^ x >>> 3

def smallSigma1 (x : Nat) : Nat := rotr32 17 x ^^^ rotr32 19 x ^^^ x >>> 10

def bigSigma0 (x : Nat) : Nat := rotr32 2 x ^^^ rotr32 13 x ^^^ rotr32 22 x

def bigSigma1 (x : Nat) : Nat := rotr32 6 x ^^^ rotr32 11 x ^^^ rotr32 25 x

/-- The 64 round constants of SHA-256 (FIPS 180-4), written in decimal. -/
def sha256K : List Nat :=
  [1116352408, 1899447441, 3049323471, 3921009573, 961987163,
   1508970993, 2453635748, 2870763221, 3624381080, 310598401,
   607225278, 1426881987, 1925078388, 2162078206, 2614888103,
   3248222580, 3835390401, 4022224774, 264347078, 604807628,
   770255983, 1249150122, 1555081692, 1996064986, 2554220882,
   2821834349, 2952996808, 3210313671, 3336571891, 3584528711,
   113926993, 338241895, 666307205, 773529912, 1294757372,
   1396182291, 1695183700, 1986661051, 2177026350, 2456956037,
   2730485921, 2820302411, 3259730800, 3345764771, 3516065817,
   3600352804, 4094571909, 275423344, 430227734, 506948616,
   659060556, 883997877, 958139571, 1322822218, 1537002063,
   1747873779, 1955562222, 2024104815, 2227730452, 2361852424,
   2428436474, 2756734187, 3204031479, 3329325298]

/-- The eight initial hash words of SHA-256, written in decimal. -/
def sha256H0 : List Nat :=
  [1779033703, 3144134277, 1013904242, 2773480762,
   1359893119, 2600822924, 528734635, 1541459225]

/-- Big-endian packing of bytes into 32-bit words. -/
def bytesToWords : Bytes → List Nat
  | b0 :: b1 :: b2 :: b3 :: rest =>
    (((b0 * 256 + b1) * 256 + b2) * 256 + b3) :: bytesToWords rest
  | _ => []

/-- Extend the 16 schedule words to 64 with the SHA-256 recurrence,
`n` extension steps remaining. -/
def extendSchedule (w : List Nat) : Nat → List Nat
  | 0 => w
  | n + 1 =>
    let i := w.length
    let wi := w32 (smallSigma1 (w.getD (i - 2) 0) + w.getD (i - 7) 0 +
      smallSigma0 (w.getD (i - 15) 0) + w.getD (i - 16) 0)
    extendSchedule (w ++ [wi]) n

/-- The eight working variables of the compression loop. -/
structure SHAState where
  a : Nat
  b : Nat
  c : Nat
  d : Nat
  e : Nat
  f : Nat
  g : Nat
  h : Nat

/-- One compression round with round constant `ki` and schedule word
`wi`. -/
def shaRound (s : SHAState) (ki wi : Nat) : SHAState :=
  let ch := (s.e &&& s.f) ^^^ ((s.e ^^^ 0xffffffff) &&& s.g)
  let maj := ((s.a &&& s.b) ^^^ (s.a &&& s.c)) ^^^ (s.b &&& s.c)
  let t1 := w32 (s.h + bigSigma1 s.e + ch + ki + wi)
  let t2 := w32 (bigSigma0 s.a + maj)
  { a := w32 (t1 + t2), b := s.a, c := s.b, d := s.c,
    e := w32 (s.d + t1), f := s.e, g := s.f, h := s.g }

/-- Compress one 64-byte chunk into the running hash words. -/
def processChunk (hs : List Nat) (chunk : Bytes) : List Nat :=
  let w := extendSchedule (bytesToWords chunk) 48
  let s0 : SHAState :=
    { a := hs.getD 0 0, b := hs.getD 1 0, c := hs.getD 2 0, d := hs.getD 3 0,
      e := hs.getD 4 0, f := hs.getD 5 0, g := hs.getD 6 0, h := hs.getD 7 0 }
  let s1 := (List.zip sha256K w).foldl (fun s kw => shaRound s kw.1 kw.2) s0
  [w32 (hs.getD 0 0 + s1.a), w32 (hs.getD 1 0 + s1.b),
   w32 (hs.getD 2 0 + s1.c), w32 (hs.getD 3 0 + s1.d),
   w32 (hs.getD 4 0 + s1.e), w32 (hs.getD 5 0 + s1.f),
   w32 (hs.getD 6 0 + s1.g), w32 (hs.getD 7 0 + s1.h)]

/-- SHA-256 padding: a 0x80 byte, zeros up to 56 mod 64, then the bit length
as a 64-bit big-endian integer. -/
def sha256Pad (msg : Bytes) : Bytes :=
  let bitLen := msg.length * 8
  let padZeros := (119 - msg.length % 64) % 64
  msg ++ [0x80] ++ List.replicate padZeros 0 ++
    [bitLen / 2 ^ 56 % 256, bitLen / 2 ^ 48 % 256, bitLen / 2 ^ 40 % 256,
     bitLen / 2 ^ 32 % 256, bitLen / 2 ^ 24 % 256, bitLen / 2 ^ 16 % 256,
     bitLen / 2 ^ 8 % 256, bitLen % 256]

/-- Split a byte list into 64-byte chunks. -/
def toChunks (l : Bytes) : List Bytes :=
  if h : l = [] then []
  else
    have : (l.drop 64).length < l.length := by
      have hpos : 0 < l.length := List.length_pos.mpr h
      simp only [List.length_drop]
      omega
    l.take 64 :: toChunks (l.drop 64)
termination_by l.length

/-- Big-endian serialization of one hash word. -/
def wordToBytes (w : Nat) : Bytes :=
  [w / 2 ^ 24 % 256, w / 2 ^ 16 % 256, w / 2 ^ 8 % 256, w % 256]

/-- SHA-256 of a byte string: pad, compress chunk by chunk, serialize the
eight final words. -/
def sha256 (msg : Bytes) : Bytes :=
  let hs := (toChunks (sha256Pad msg)).foldl processChunk sha256H0
  wordToBytes (hs.getD 0 0) ++ wordToBytes (hs.getD 1 0) ++
    wordToBytes (hs.getD 2 0) ++ wordToBytes (hs.getD 3 0) ++
    wordToBytes (hs.getD 4 0) ++ wordToBytes (hs.getD 5 0) ++
    wordToBytes (hs.getD 6 0) ++ wordToBytes (hs.getD 7 0)

/-- Go crypto/hmac instantiated with SHA-256 (block size 64): long keys are
hashed, short keys zero-padded; inner and outer pads 0x36 and 0x5c. -/
def hmacSha256 (key msg : Bytes) : Bytes :=
  let key1 := if 64 < key.length then sha256 key else key
  let key2 := key1 ++ List.replicate (64 - key1.length) 0
  sha256 (key2.map (fun b => b ^^^ 0x5c) ++
    sha256 (key2.map (fun b => b ^^^ 0x36) ++ msg))

/-- The lowercase hexadecimal alphabet of Go encoding/hex. -/
def hexDigits : List Char := "0123456789abcdef".toList

/-- Go `hex.EncodeToString`: two lowercase hex characters per byte.  (The
extra `% 16` on the high nibble is the identity for genuine bytes and keeps
every index inside the alphabet.) -/
def hexEncode (bs : Bytes) : Str :=
  bs.flatMap (fun b =>
    [hexDigits.getD (b / 16 % 16) '0', hexDigits.getD (b % 16) '0'])

/-- Embeds `calculateSignature` (internal/services/webhook.go lines 257-262):
hex-encoded HMAC-SHA256 of the payload under the secret. -/
def calculateSignature (payload : Bytes) (secret : Bytes) : Str :=
  hexEncode (hmacSha256 secret payload)

/-- The algorithm tag `"sha256="` that `ValidateSignature` strips when
present. -/
def sigTag : Str := ['s', 'h', 'a', '2', '5', '6', '=']

/-- Embeds `ValidateSignature` (internal/services/webhook.go lines 426-443): false
on an empty secret or signature; an optional leading `"sha256="` tag is
removed; then the presented value is compared against the recomputed
signature (Go's constant-time `hmac.Equal`, modelled as equality). -/
def ValidateSignature (payload : Bytes) (secret : Bytes)
    (signature : Str) : Bool :=
  if secret == [] || signature == [] then false
  else
    let sig := if sigTag.isPrefixOf signature then signature.drop sigTag.length
      else signature
    sig == hexEncode (hmacSha256 secret payload)

theorem sha256_length (msg : Bytes) : (sha256 msg).length = 32 := by
  simp [sha256, wordToBytes]

theorem hmacSha256_length (key msg : Bytes) :
    (hmacSha256 key msg).length = 32 := by
  simp only [hmacSha256]
  exact sha256_length _

theorem hexEncode_length (bs : Bytes) : (hexEncode bs).length = 2 * bs.length := by
  induction bs with
  | nil => rfl
  | cons b rest ih =>
    have hstep : hexEncode (b :: rest) =
        hexDigits.getD (b / 16 % 16) '0' :: hexDigits.getD (b % 16) '0' ::
          hexEncode rest := rfl
    rw [hstep]
    simp only [List.length_cons, ih]
    omega

theorem hexDigitsGetD_ne_s (k : Nat) (hk : k < 16) :
    hexDigits.getD k '0' ≠ 's' := by
  interval_cases k <;> decide

theorem sigTag_isPrefixOf_hexEncode (bs : Bytes) :
    sigTag.isPrefixOf (hexEncode bs) = false := by
  cases bs with
  | nil => rfl
  | cons b rest =>
    have hk : b / 16 % 16 < 16 := Nat.mod_lt _ (by norm_num)
    have hne := hexDigitsGetD_ne_s (b / 16 % 16) hk
    have hbeq : (('s' : Char) == hexDigits.getD (b / 16 % 16) '0') = false :=
      beq_eq_false_iff_ne.mpr (Ne.symm hne)
    have hstep : hexEncode (b :: rest) =
        hexDigits.getD (b / 16 % 16) '0' :: hexDigits.getD (b % 16) '0' ::
          hexEncode rest := rfl
    have hunfold : sigTag.isPrefixOf (hexDigits.getD (b / 16 % 16) '0' ::
        hexDigits.getD (b % 16) '0' :: hexEncode rest) =
        (('s' == hexDigits.getD (b / 16 % 16) '0') &&
          (['h', 'a', '2', '5', '6', '='].isPrefixOf
            (hexDigits.getD (b % 16) '0' :: hexEncode rest))) := rfl
    rw [hstep, hunfold, hbeq, Bool.false_and]

theorem isPrefixOf_append_self (a b : Str) : a.isPrefixOf (a ++ b) = true := by
  induction a with
  | nil => simp [List.isPrefixOf]
  | cons c a' ih => simp [List.isPrefixOf, ih]

/-- C2: for every payload and non-empty secret, validating the computed
signature succeeds, with or without the "sha256=" tag in front; and
validation returns false whenever the secret or the presented signature is
empty (the function is total, so it never throws). -/
theorem C2_signature_roundtrip (p : Bytes) (s0 : Nat) (st : Bytes)
    (sig : Str) :
    ValidateSignature p (s0 :: st) (calculateSignature p (s0 :: st)) = true ∧
    ValidateSignature p (s0 :: st)
      (sigTag ++ calculateSignature p (s0 :: st)) = true ∧
    ValidateSignature p [] sig = false ∧
    ValidateSignature p (s0 :: st) [] = false := by
  have hsec : ((s0 :: st : Bytes) == []) = false := rfl
  have hlen := hmacSha256_length (s0 :: st) p
  have hhex_ne : (hexEncode (hmacSha256 (s0 :: st) p) == ([] : Str)) = false := by
    rw [beq_eq_false_iff_ne]
    intro hnil
    have h0 := congrArg List.length hnil
    rw [hexEncode_length, hlen] at h0
    simp at h0
  refine ⟨?_, ?_, rfl, rfl⟩
  · simp only [ValidateSignature, calculateSignature, hsec, hhex_ne,
      Bool.or_self, Bool.or_false, Bool.false_or, Bool.false_eq_true,
      if_false, sigTag_isPrefixOf_hexEncode]
    simp
  · have happ_ne : ((sigTag ++ calculateSignature p (s0 :: st)) == ([] : Str))
        = false := rfl
    simp only [ValidateSignature, calculateSignature, hsec, happ_ne,
      Bool.or_self, Bool.or_false, Bool.false_or, Bool.false_eq_true,
      if_false, isPrefixOf_append_self]
    simp [List.drop_left]
    exact Or.inl (by simp [sigTag])

end PingLater
